import Mathlib

/-!
Verification development for the GBA cartridge subsystem
(`higan/gba/cartridge/cartridge.cpp`): address routing, buffer-level
access, loading/unloading, and the storage-chip configuration.

Byte buffers are embedded as total functions `Nat → Nat` (index to byte
value); machine integers are `Nat` with explicit masking where the source
relies on fixed-width behaviour (`uint8` stores truncate modulo 256, and
`uint32` addresses are masked with 32-bit constants exactly where the
source masks them).
-/

namespace GameBoyAdvance

/-- Access widths of the cartridge bus (`Byte`, `Half`, `Word` in the source). -/
inductive Width
  | Byte
  | Half
  | Word
deriving DecidableEq

/-- The alignment step at the top of the buffer-level overloads:
`if(size == Word) addr &= ~3; if(size == Half) addr &= ~1;`.
On a 32-bit address, `~3 = 0xfffffffc` and `~1 = 0xfffffffe`. -/
def alignAddr (size : Width) (addr : Nat) : Nat :=
  match size with
  | .Word => addr &&& 0xfffffffc
  | .Half => addr &&& 0xfffffffe
  | .Byte => addr

/-- Number of bytes transferred by an access of the given width. -/
def widthBytes (size : Width) : Nat :=
  match size with
  | .Word => 4
  | .Half => 2
  | .Byte => 1

/-- Embeds `Cartridge::read(uint8 *data, uint32 addr, uint32 size)`: realign the
address, then compose bytes little-endian
(`data[0] << 0 | data[1] << 8 | data[2] << 16 | data[3] << 24`). -/
def readBuffer (data : Nat → Nat) (addr : Nat) (size : Width) : Nat :=
  let addr := alignAddr size addr
  match size with
  | .Word => data (addr + 0) <<< 0 ||| data (addr + 1) <<< 8 |||
             data (addr + 2) <<< 16 ||| data (addr + 3) <<< 24
  | .Half => data (addr + 0) <<< 0 ||| data (addr + 1) <<< 8
  | .Byte => data (addr + 0)

/-- Embeds `Cartridge::write(uint8 *data, uint32 addr, uint32 size, uint32 word)`:
realign the address, then store bytes little-endian through the fallthrough
switch (`Word` stores bytes 3,2,1,0; `Half` stores 1,0; `Byte` stores 0);
each `uint8` store truncates the shifted word modulo 256. -/
def writeBuffer (data : Nat → Nat) (addr : Nat) (size : Width) (word : Nat) :
    Nat → Nat :=
  let addr := alignAddr size addr
  fun i =>
    match size with
    | .Word =>
      if i = addr + 3 then (word >>> 24) % 256
      else if i = addr + 2 then (word >>> 16) % 256
      else if i = addr + 1 then (word >>> 8) % 256
      else if i = addr + 0 then (word >>> 0) % 256
      else data i
    | .Half =>
      if i = addr + 1 then (word >>> 8) % 256
      else if i = addr + 0 then (word >>> 0) % 256
      else data i
    | .Byte =>
      if i = addr + 0 then (word >>> 0) % 256
      else data i

/-- The program-image store (`rom` member): owned buffer and capacity. -/
structure Rom where
  data : Nat → Nat
  size : Nat
deriving Inhabited

/-- Battery RAM (`ram` member): owned buffer, size, and address mask. -/
structure Sram where
  data : Nat → Nat
  size : Nat
  mask : Nat
deriving Inhabited

/-- Protocol phases of the serial EEPROM engine. -/
inductive EepromMode
  | Idle
  | ReceivingCommand
  | ReceivingAddress
  | ReceivingWriteData
  | SendingDummyBits
  | SendingReadData
deriving DecidableEq, Inhabited

/-- The EEPROM chip (`eeprom` member): buffer, configuration fields set by
`Cartridge::load` (`size`, `bits`, `mask`, `test`), and the serial-protocol
registers of the engine. -/
structure Eeprom where
  data : Nat → Nat
  size : Nat
  bits : Nat
  mask : Nat
  test : Nat
  mode : EepromMode
  accum : Nat
  count : Nat
  command : Nat
  address : Nat
deriving Inhabited

/-- The FlashROM chip (`flashrom` member): buffer, configuration (`size`,
`id`), and the command-sequence registers of the engine. -/
structure FlashRom where
  data : Nat → Nat
  size : Nat
  id : Nat
  idmode : Bool
  seq : Nat
  erasing : Bool
  programNext : Bool
  bankNext : Bool
  bank : Nat
deriving Inhabited

/-- Identifiers of the memory streams announced to the frontend
(`ID::ROM`, `ID::RAM`, `ID::EEPROM`, `ID::FlashROM`). -/
inductive MemId
  | ROM
  | RAM
  | EEPROM
  | FlashROM
deriving DecidableEq, Inhabited

/-- The cartridge facade: chip-presence flags, the four owned buffers, the
loaded flag and the list of memory streams registered with the frontend. -/
structure Cartridge where
  loaded : Bool
  has_sram : Bool
  has_eeprom : Bool
  has_flashrom : Bool
  rom : Rom
  ram : Sram
  eeprom : Eeprom
  flashrom : FlashRom
  memory : List MemId
deriving Inhabited

/-- Modelled from the spec: `eeprom.cpp` (the serial engine behind
`eeprom.read()` / `eeprom.write(bit)`) is not under `src/`.  Per §4.2,
a completed 64-bit write overwrites the 8-byte record at the latched
address, wrapped modulo the configured record count (`size / 8` records),
most-significant byte first. -/
def storeRecord (data : Nat → Nat) (size addr acc : Nat) : Nat → Nat :=
  if size / 8 = 0 then data else
    fun i =>
      let base := addr % (size / 8) * 8
      if base ≤ i ∧ i < base + 8 then (acc >>> (8 * (7 - (i - base)))) % 256
      else data i

/-- Modelled from the spec: `eeprom.cpp` is not under `src/`.  §4.2,
`read()`: returns `1` while idle or during the dummy/latency bits;
during `SendingReadData` returns successive bits (most-significant first)
of the 8-byte record at the latched address, 64 bits total, then returns
to `Idle`.  The dummy-bit count is a hardware latency the spec leaves
open; four dummy bits are used here. -/
def Eeprom.readBit (e : Eeprom) : Nat × Eeprom :=
  match e.mode with
  | .SendingDummyBits =>
    if e.count + 1 ≥ 4 then (1, { e with mode := .SendingReadData, count := 0 })
    else (1, { e with count := e.count + 1 })
  | .SendingReadData =>
    let records := if e.size / 8 = 0 then 1 else e.size / 8
    let base := e.address % records * 8
    let bit := (e.data (base + e.count / 8) >>> (7 - e.count % 8)) &&& 1
    if e.count + 1 ≥ 64 then (bit, { e with mode := .Idle, count := 0 })
    else (bit, { e with count := e.count + 1 })
  | _ => (1, e)

/-- Modelled from the spec: `eeprom.cpp` is not under `src/`.  §4.2,
`write(bit)`: shifts the bit into the accumulator; a start bit leaves
`Idle`; a 2-bit opcode (`11` read, `10` write) selects the transaction;
`addressBits` address bits follow (`addressBits = 0` means auto-detect,
whose access-pattern heuristic the spec leaves open; 14 bits are assumed
here); a read transaction then moves to the dummy-bit phase, a write
collects 64 data bits and stores the record. -/
def Eeprom.writeBit (e : Eeprom) (bit : Nat) : Eeprom :=
  match e.mode with
  | .Idle =>
    if bit = 1 then { e with mode := .ReceivingCommand, accum := 0, count := 0 }
    else e
  | .ReceivingCommand =>
    let acc := e.accum * 2 + bit
    if e.count + 1 ≥ 2 then
      { e with mode := .ReceivingAddress, command := acc, accum := 0, count := 0 }
    else { e with accum := acc, count := e.count + 1 }
  | .ReceivingAddress =>
    let acc := e.accum * 2 + bit
    let nbits := if e.bits = 0 then 14 else e.bits
    if e.count + 1 ≥ nbits then
      if e.command = 3 then
        { e with mode := .SendingDummyBits, address := acc, accum := 0, count := 0 }
      else
        { e with mode := .ReceivingWriteData, address := acc, accum := 0, count := 0 }
    else { e with accum := acc, count := e.count + 1 }
  | .ReceivingWriteData =>
    let acc := e.accum * 2 + bit
    if e.count + 1 ≥ 64 then
      { e with mode := .Idle, accum := 0, count := 0,
               data := storeRecord e.data e.size e.address acc }
    else { e with accum := acc, count := e.count + 1 }
  | _ => e

/-- Modelled from the spec: `flashrom.cpp` is not under `src/`.  §4.3:
in identification mode, reads at offsets 0 and 1 return the two bytes of
`chipId`; outside any special mode a read returns the raw buffer byte at
the bank-relative address (banks are 64 KiB windows of the chip). -/
def FlashRom.read (f : FlashRom) (addr : Nat) : Nat :=
  let offset := addr &&& 0xffff
  if f.idmode then
    if offset = 0 then f.id &&& 0xff
    else if offset = 1 then (f.id >>> 8) &&& 0xff
    else 0
  else f.data (f.bank * 65536 + offset)

/-- Modelled from the spec: erase to all-ones the 4 KiB sector containing
the target address. -/
def eraseSector (data : Nat → Nat) (target : Nat) : Nat → Nat :=
  fun i => if i / 4096 = target / 4096 then 0xff else data i

/-- Modelled from the spec: chip-level erase to all-ones. -/
def eraseChip (data : Nat → Nat) (size : Nat) : Nat → Nat :=
  fun i => if i < size then 0xff else data i

/-- Modelled from the spec: `flashrom.cpp` is not under `src/`.  §4.3,
`write(addr, byte)`: the `AA,55` unlock pair at offsets `0x5555`/`0x2AAA`
followed by a command byte selects identification mode (`90`/`F0`),
erase pending (`80`, completed by `30@addr` sector erase or `10` chip
erase), byte program (`A0`, result is old AND new), or bank select
(`B0`, chips of at least 128 KiB); malformed sequences are silently
discarded and the engine returns to its ready state. -/
def FlashRom.write (f : FlashRom) (addr byte : Nat) : FlashRom :=
  let offset := addr &&& 0xffff
  let byte := byte % 256
  if f.programNext then
    { f with programNext := false,
             data := fun i =>
               if i = f.bank * 65536 + offset then f.data i &&& byte else f.data i }
  else if f.bankNext then
    { f with bankNext := false, bank := byte &&& 1 }
  else if f.seq = 0 then
    if offset = 0x5555 ∧ byte = 0xaa then { f with seq := 1 }
    else { f with erasing := false }
  else if f.seq = 1 then
    if offset = 0x2aaa ∧ byte = 0x55 then { f with seq := 2 }
    else { f with seq := 0, erasing := false }
  else
    if offset = 0x5555 ∧ byte = 0x90 then { f with seq := 0, idmode := true }
    else if offset = 0x5555 ∧ byte = 0xf0 then { f with seq := 0, idmode := false }
    else if offset = 0x5555 ∧ byte = 0x80 then { f with seq := 0, erasing := true }
    else if offset = 0x5555 ∧ byte = 0x10 ∧ f.erasing then
      { f with seq := 0, erasing := false, data := eraseChip f.data f.size }
    else if byte = 0x30 ∧ f.erasing then
      { f with seq := 0, erasing := false,
               data := eraseSector f.data (f.bank * 65536 + offset) }
    else if offset = 0x5555 ∧ byte = 0xa0 then { f with seq := 0, programNext := true }
    else if offset = 0x5555 ∧ byte = 0xb0 ∧ 131072 ≤ f.size then
      { f with seq := 0, bankNext := true }
    else { f with seq := 0, erasing := false }

/-- Embeds `Cartridge::read(uint32 addr, uint32 size)`: priority-ordered routing.
`pipeline` stands for `cpu.pipeline.fetch.instruction`, the last
instruction fetched by the CPU collaborator (the open-bus value).  An
EEPROM read advances the serial engine, so the result carries the updated
cartridge state.  The `RAM_ANALYZE` print hooks are one-shot diagnostics
with no effect on the routed access and are not modelled. -/
def Cartridge.read (c : Cartridge) (pipeline addr : Nat) (size : Width) :
    Nat × Cartridge :=
  if c.has_sram ∧ addr &&& 0x0e000000 = 0x0e000000 then
    (readBuffer c.ram.data (addr &&& c.ram.mask) size, c)
  else if c.has_eeprom ∧ addr &&& c.eeprom.mask = c.eeprom.test then
    let r := c.eeprom.readBit
    (r.1, { c with eeprom := r.2 })
  else if c.has_flashrom ∧ addr &&& 0x0e000000 = 0x0e000000 then
    (c.flashrom.read addr, c)
  else if addr < 0x0e000000 then
    (readBuffer c.rom.data (addr &&& 0x01ffffff) size, c)
  else
    (pipeline, c)

/-- Embeds `Cartridge::write(uint32 addr, uint32 size, uint32 word)`: the same
priority order; an address matching no route falls off the end of the
function and the write has no effect. -/
def Cartridge.write (c : Cartridge) (addr : Nat) (size : Width) (word : Nat) :
    Cartridge :=
  if c.has_sram ∧ addr &&& 0x0e000000 = 0x0e000000 then
    { c with ram := { c.ram with
        data := writeBuffer c.ram.data (addr &&& c.ram.mask) size word } }
  else if c.has_eeprom ∧ addr &&& c.eeprom.mask = c.eeprom.test then
    { c with eeprom := c.eeprom.writeBit (word &&& 1) }
  else if c.has_flashrom ∧ addr &&& 0x0e000000 = 0x0e000000 then
    { c with flashrom := c.flashrom.write addr word }
  else
    c

/-- Destinations of the address router, as the spec's classification
list names them. -/
inductive Dest
  | sram
  | eeprom
  | flashrom
  | rom
  | openBus
deriving DecidableEq

/-- Written from the spec's words ("first match wins"): the
priority-ordered classification of a bus address — battery RAM, then
EEPROM, then FlashROM, then the image window, else open-bus. -/
def classify (c : Cartridge) (addr : Nat) : Dest :=
  if c.has_sram ∧ addr &&& 0x0e000000 = 0x0e000000 then .sram
  else if c.has_eeprom ∧ addr &&& c.eeprom.mask = c.eeprom.test then .eeprom
  else if c.has_flashrom ∧ addr &&& 0x0e000000 = 0x0e000000 then .flashrom
  else if addr < 0x0e000000 then .rom
  else .openBus

/-- Modelled from the spec: `Bus::mirror` is not under `src/`.  The spec's
ImageStore tiles the physical image across the window so that "every
address modulo `logicalSize` resolves to valid data" (image sizes are
powers of two or zero), so the mirror of `addr` into a region of `size`
bytes is `addr % size`, and 0 for an empty region. -/
def busMirror (addr size : Nat) : Nat :=
  if size = 0 then 0 else addr % size

/-- The load-time tiling loop
`for(addr = rom_size; addr < rom.size; addr++)
   rom.data[addr] = rom.data[Bus::mirror(addr, rom_size)];`
as a recursion on the number of completed iterations: after `n` iterations
the indices `romSize ≤ i < romSize + n` have been rewritten, each from the
buffer as it stood when that iteration ran. -/
def mirrorLoop (data : Nat → Nat) (romSize : Nat) : Nat → Nat → Nat
  | 0 => data
  | n + 1 =>
    let d := mirrorLoop data romSize n
    fun i => if i = romSize + n then d (busMirror (romSize + n) romSize) else d i

/-- The `for(n = 0; n < size; n++) data[n] = 0xff;` erased-fill loops of
`Cartridge::load`, as the resulting buffer. -/
def fillErased (data : Nat → Nat) (size : Nat) : Nat → Nat :=
  fun i => if i < size then 0xff else data i

/-- The resolved `cartridge/ram` manifest node: which storage chip the
manifest configures, with its parameters (the `SRAM` and `FRAM` type
strings configure the same battery-RAM kind). -/
inductive StorageKind
  | none
  | sram (size : Nat)
  | eeprom (size : Nat)
  | flashrom (id size : Nat)

/-- Embeds `Cartridge::load`, over already-resolved manifest fields (manifest
parsing, the `interface->loadRequest` file transfers, the sha256 of the
image and `system.load()` belong to external collaborators and are outside
this core).  When the manifest has a `cartridge/rom` node, `romLoad`
supplies the image bytes the frontend's `loadRequest` placed in the buffer
together with the declared `rom_size`; the tiling loop then mirrors them
across the 32 MiB window.  A `loadRequest` for a storage chip may later
overlay a save file on the freshly erased chip buffer; the model takes the
case where the frontend supplies no save file, so the chip buffer keeps
its erased fill. -/
def Cartridge.load (c : Cartridge) (romLoad : Option ((Nat → Nat) × Nat))
    (storage : StorageKind) : Cartridge :=
  let romSize := match romLoad with
    | Option.none => 0
    | Option.some (_, s) => s
  let c := match romLoad with
    | Option.none => c
    | Option.some (content, s) =>
      { c with rom := { c.rom with
          data := mirrorLoop (fun i => if i < s then content i else c.rom.data i)
                    s (c.rom.size - s) } }
  let c := { c with has_sram := false, has_eeprom := false, has_flashrom := false }
  match storage with
  | .none => { c with loaded := true }
  | .sram size =>
    { c with
        has_sram := true
        ram := { data := fillErased c.ram.data size
                 size := size
                 mask := size - 1 }
        memory := c.memory ++ [MemId.RAM]
        loaded := true }
  | .eeprom size =>
    let sizeR := if size = 0 then 8192 else size
    let bitsR := if size = 0 then 0 else if size ≤ 512 then 6 else 14
    { c with
        has_eeprom := true
        eeprom := { c.eeprom with
                      size := sizeR
                      bits := bitsR
                      mask := if romSize > 16 * 1024 * 1024 then 0x0fffff00
                              else 0x0f000000
                      test := if romSize > 16 * 1024 * 1024 then 0x0dffff00
                              else 0x0d000000
                      data := fillErased c.eeprom.data sizeR }
        memory := c.memory ++ [MemId.EEPROM]
        loaded := true }
  | .flashrom chipId size =>
    { c with
        has_flashrom := true
        flashrom := { c.flashrom with
                        id := chipId
                        size := size
                        data := fillErased c.flashrom.data size }
        memory := c.memory ++ [MemId.FlashROM]
        loaded := true }

/-- Embeds `Cartridge::unload`: returns immediately when not loaded; otherwise
clears the loaded flag and resets the registered memory-stream list. -/
def Cartridge.unload (c : Cartridge) : Cartridge :=
  if c.loaded = false then c
  else { c with loaded := false, memory := [] }

/-- Embeds `Cartridge::ram_data()`: the active storage buffer; `none` models the
`nullptr` result. -/
def Cartridge.ram_data (c : Cartridge) : Option (Nat → Nat) :=
  if c.has_sram then some c.ram.data
  else if c.has_eeprom then some c.eeprom.data
  else if c.has_flashrom then some c.flashrom.data
  else none

/-- Embeds `Cartridge::ram_size()`. -/
def Cartridge.ram_size (c : Cartridge) : Nat :=
  if c.has_sram then c.ram.size
  else if c.has_eeprom then c.eeprom.size
  else if c.has_flashrom then c.flashrom.size
  else 0

/-- Embeds `Cartridge::Cartridge()`: sets `loaded = false` and allocates the four
buffers with their fixed capacities (`new uint8[rom.size = 32 MiB]` and so
on).  `new uint8[n]` leaves the allocated bytes indeterminate and the
constructor writes nothing else, so every field the constructor does not
assign — the buffer contents, `ram.mask`, the chip-presence flags, the
engine registers — comes from the indeterminate pre-state `u`. -/
def Cartridge.init (u : Cartridge) : Cartridge :=
  { u with loaded := false,
           rom := { u.rom with size := 32 * 1024 * 1024 },
           ram := { u.ram with size := 32 * 1024 },
           eeprom := { u.eeprom with size := 8 * 1024 },
           flashrom := { u.flashrom with size := 128 * 1024 } }

/-- A fully concrete cartridge state, used as the base of the concrete
instances below: all buffers zero, no chips, nothing loaded.  It also
serves as one possible concrete value of the indeterminate pre-state fed
to the constructor model. -/
def zeroCart : Cartridge :=
  { loaded := false
    has_sram := false
    has_eeprom := false
    has_flashrom := false
    rom := { data := fun _ => 0, size := 0 }
    ram := { data := fun _ => 0, size := 0, mask := 0 }
    eeprom := { data := fun _ => 0, size := 0, bits := 0, mask := 0, test := 0
                mode := .Idle, accum := 0, count := 0, command := 0, address := 0 }
    flashrom := { data := fun _ => 0, size := 0, id := 0, idmode := false
                  seq := 0, erasing := false, programNext := false
                  bankNext := false, bank := 0 }
    memory := [] }

/-- A constructed cartridge loaded with a 32 KiB battery-RAM configuration
and no image. -/
def cSram : Cartridge :=
  (Cartridge.init zeroCart).load Option.none (StorageKind.sram 32768)

/-- A constructed cartridge loaded with a 512-byte EEPROM configuration
and no image. -/
def cEep : Cartridge :=
  (Cartridge.init zeroCart).load Option.none (StorageKind.eeprom 512)

/-- A constructed cartridge loaded with a 64 KiB FlashROM configuration
and no image. -/
def cFlash : Cartridge :=
  (Cartridge.init zeroCart).load Option.none (StorageKind.flashrom 0x1b32 65536)

/-- The FlashROM cartridge after the byte-program sequence
`AA@0x5555, 55@0x2AAA, A0@0x5555, 12@0` issued over the bus, so the chip
holds 0x12 at offset 0 and the erased 0xFF at offset 1. -/
def cFlashProg : Cartridge :=
  (((cFlash.write 0x0e005555 Width.Byte 0xaa).write
      0x0e002aaa Width.Byte 0x55).write
      0x0e005555 Width.Byte 0xa0).write
      0x0e000000 Width.Byte 0x12

/-- The battery-RAM cartridge after a bus write of 0x42 to 0x0E000000. -/
def cSramW : Cartridge :=
  cSram.write 0x0e000000 Width.Byte 0x42

/-- The battery-RAM cartridge after a bus write of 1 to 0x0E007FFF
(the top byte of the 32 KiB chip). -/
def cSramTop : Cartridge :=
  cSram.write 0x0e007fff Width.Byte 1

/-- The C6 scenario cartridge: constructed from the indeterminate
pre-state `u`, loaded with an 8 MiB image holding the bytes `rc` and a
32 KiB battery-RAM configuration, then written with a Byte 0x42 at bus
address 0x0E001000. -/
def c6cart (u : Cartridge) (rc : Nat → Nat) : Cartridge :=
  ((Cartridge.init u).load (some (rc, 8 * 1024 * 1024))
      (StorageKind.sram (32 * 1024))).write 0x0e001000 Width.Byte 0x42

/-! ### Arithmetic helpers -/

theorem lor_shiftLeft_eq_add {b n : Nat} (a : Nat) (hb : b < 2 ^ n) :
    b ||| a <<< n = a * 2 ^ n + b := by
  rw [Nat.shiftLeft_eq, Nat.lor_comm, Nat.mul_comm a (2 ^ n)]
  exact (Nat.mul_add_lt_is_or hb a).symm

theorem lor4_eq (b0 b1 b2 b3 : Nat) (h0 : b0 < 256) (h1 : b1 < 256)
    (h2 : b2 < 256) :
    b0 <<< 0 ||| b1 <<< 8 ||| b2 <<< 16 ||| b3 <<< 24
      = b0 + b1 * 256 + b2 * 65536 + b3 * 16777216 := by
  rw [Nat.shiftLeft_zero]
  rw [lor_shiftLeft_eq_add b1 (show b0 < 2 ^ 8 by omega)]
  rw [lor_shiftLeft_eq_add b2 (show b1 * 2 ^ 8 + b0 < 2 ^ 16 by omega)]
  rw [lor_shiftLeft_eq_add b3 (show b2 * 2 ^ 16 + (b1 * 2 ^ 8 + b0) < 2 ^ 24 by omega)]
  omega

theorem lor2_eq (b0 b1 : Nat) (h0 : b0 < 256) :
    b0 <<< 0 ||| b1 <<< 8 = b0 + b1 * 256 := by
  rw [Nat.shiftLeft_zero, lor_shiftLeft_eq_add b1 (show b0 < 2 ^ 8 by omega)]
  omega

theorem readBuffer_word (data : Nat → Nat) (addr : Nat) :
    readBuffer data addr Width.Word =
      data (alignAddr Width.Word addr + 0) <<< 0 |||
      data (alignAddr Width.Word addr + 1) <<< 8 |||
      data (alignAddr Width.Word addr + 2) <<< 16 |||
      data (alignAddr Width.Word addr + 3) <<< 24 := rfl

theorem readBuffer_half (data : Nat → Nat) (addr : Nat) :
    readBuffer data addr Width.Half =
      data (alignAddr Width.Half addr + 0) <<< 0 |||
      data (alignAddr Width.Half addr + 1) <<< 8 := rfl

theorem and_sub_pow {x m n : Nat} (hx : x < 2 ^ m) (hnm : n ≤ m) :
    x &&& (2 ^ m - 2 ^ n) = x - x % 2 ^ n := by
  have hmask : (2 : Nat) ^ m - 2 ^ n = (2 ^ (m - n) - 1) <<< n := by
    rw [Nat.shiftLeft_eq, Nat.sub_mul, Nat.one_mul, ← Nat.pow_add]
    congr 2
    omega
  have hdm := Nat.div_add_mod x (2 ^ n)
  have h2 : x - x % 2 ^ n = (x >>> n) <<< n := by
    rw [Nat.shiftRight_eq_div_pow, Nat.shiftLeft_eq, Nat.mul_comm]
    omega
  rw [h2, hmask]
  apply Nat.eq_of_testBit_eq
  intro i
  simp only [Nat.testBit_and, Nat.testBit_shiftLeft, Nat.testBit_shiftRight,
    Nat.testBit_two_pow_sub_one]
  by_cases hin : n ≤ i
  · by_cases him : i < m
    · have hni : n + (i - n) = i := by omega
      have hmn : i - n < m - n := by omega
      simp [hin, hni, hmn]
    · have hxi : x.testBit i = false :=
        Nat.testBit_lt_two_pow
          (lt_of_lt_of_le hx (Nat.pow_le_pow_right (by omega) (by omega)))
      have hxi2 : x.testBit (n + (i - n)) = false := by
        have hni : n + (i - n) = i := by omega
        rw [hni, hxi]
      simp [hxi, hxi2, hin]
  · simp [hin]

theorem and_right_comm (a b c : Nat) : a &&& b &&& c = a &&& c &&& b := by
  rw [Nat.and_assoc, Nat.and_assoc, Nat.and_comm b c]

theorem align_and_eq (size : Width) (addr M : Nat)
    (hM : M &&& 0xfffffffc = M) :
    alignAddr size addr &&& M = addr &&& M := by
  have hM2 : M &&& 0xfffffffe = M := by
    calc M &&& 0xfffffffe = (M &&& 0xfffffffc) &&& 0xfffffffe := by rw [hM]
      _ = M &&& (0xfffffffc &&& 0xfffffffe) := by rw [Nat.and_assoc]
      _ = M &&& 0xfffffffc := by
          have hc : (0xfffffffc : Nat) &&& 0xfffffffe = 0xfffffffc := by decide
          rw [hc]
      _ = M := hM
  cases size
  case Byte => rfl
  case Half =>
    show addr &&& 0xfffffffe &&& M = addr &&& M
    rw [Nat.and_assoc, Nat.and_comm 0xfffffffe M, hM2]
  case Word =>
    show addr &&& 0xfffffffc &&& M = addr &&& M
    rw [Nat.and_assoc, Nat.and_comm 0xfffffffc M, hM]

theorem alignAddr_eq_sub (size : Width) {addr : Nat} (h : addr < 2 ^ 32) :
    alignAddr size addr = addr - addr % widthBytes size := by
  cases size
  case Byte =>
    show addr = addr - addr % 1
    simp [Nat.mod_one]
  case Half =>
    show addr &&& 0xfffffffe = addr - addr % 2
    have h1 : (0xfffffffe : Nat) = 2 ^ 32 - 2 ^ 1 := by norm_num
    rw [h1, and_sub_pow h (by omega)]
    norm_num
  case Word =>
    show addr &&& 0xfffffffc = addr - addr % 4
    have h1 : (0xfffffffc : Nat) = 2 ^ 32 - 2 ^ 2 := by norm_num
    rw [h1, and_sub_pow h (by omega)]
    norm_num

theorem alignAddr_and (size : Width) (x m : Nat) :
    alignAddr size (alignAddr size x &&& m) = alignAddr size (x &&& m) := by
  cases size
  case Byte => rfl
  case Half =>
    show x &&& 0xfffffffe &&& m &&& 0xfffffffe = x &&& m &&& 0xfffffffe
    rw [and_right_comm x 0xfffffffe m, Nat.and_assoc (x &&& m), Nat.and_self]
  case Word =>
    show x &&& 0xfffffffc &&& m &&& 0xfffffffc = x &&& m &&& 0xfffffffc
    rw [and_right_comm x 0xfffffffc m, Nat.and_assoc (x &&& m), Nat.and_self]

theorem readBuffer_congr (data : Nat → Nat) {size : Width} {a b : Nat}
    (h : alignAddr size a = alignAddr size b) :
    readBuffer data a size = readBuffer data b size := by
  cases size <;> simp only [readBuffer] <;> rw [h]

theorem writeBuffer_congr (data : Nat → Nat) {size : Width} {a b : Nat}
    (word : Nat) (h : alignAddr size a = alignAddr size b) :
    writeBuffer data a size word = writeBuffer data b size word := by
  cases size <;> (funext i; simp only [writeBuffer]; rw [h])

theorem classify_align (c : Cartridge) (size : Width) {addr : Nat}
    (haddr : addr < 2 ^ 32)
    (hmask : c.eeprom.mask &&& 0xfffffffc = c.eeprom.mask) :
    classify c (alignAddr size addr) = classify c addr := by
  have h1 : alignAddr size addr &&& 0x0e000000 = addr &&& 0x0e000000 :=
    align_and_eq size addr 0x0e000000 (by decide)
  have h2 : alignAddr size addr &&& c.eeprom.mask = addr &&& c.eeprom.mask :=
    align_and_eq size addr c.eeprom.mask hmask
  have h4 : (alignAddr size addr < 0x0e000000) ↔ (addr < 0x0e000000) := by
    rw [alignAddr_eq_sub size haddr]
    cases size <;> simp only [widthBytes] <;> omega
  simp only [classify, h1, h2, h4]

theorem load_sram_fields (c : Cartridge) (rl : Option ((Nat → Nat) × Nat))
    (size : Nat) :
    (c.load rl (StorageKind.sram size)).has_sram = true
    ∧ (c.load rl (StorageKind.sram size)).has_eeprom = false
    ∧ (c.load rl (StorageKind.sram size)).has_flashrom = false
    ∧ (c.load rl (StorageKind.sram size)).ram.data = fillErased c.ram.data size
    ∧ (c.load rl (StorageKind.sram size)).ram.size = size
    ∧ (c.load rl (StorageKind.sram size)).ram.mask = size - 1
    ∧ (c.load rl (StorageKind.sram size)).loaded = true := by
  cases rl <;> simp [Cartridge.load]

theorem load_rom_data (c : Cartridge) (content : Nat → Nat) (s : Nat)
    (storage : StorageKind) :
    (c.load (some (content, s)) storage).rom.data =
      mirrorLoop (fun i => if i < s then content i else c.rom.data i) s
        (c.rom.size - s) := by
  cases storage <;> simp [Cartridge.load]

theorem mirrorLoop_lt (data : Nat → Nat) (rs n j : Nat) (h : j < rs) :
    mirrorLoop data rs n j = data j := by
  induction n with
  | zero => rfl
  | succ n ih =>
    simp only [mirrorLoop]
    rw [if_neg (by omega)]
    exact ih

theorem mirrorLoop_eq (data : Nat → Nat) (rs n i : Nat) (h0 : 0 < rs) :
    mirrorLoop data rs n i =
      if rs ≤ i ∧ i < rs + n then data (i % rs) else data i := by
  induction n with
  | zero =>
    simp only [mirrorLoop]
    rw [if_neg (by omega)]
  | succ n ih =>
    simp only [mirrorLoop]
    by_cases hi : i = rs + n
    · rw [if_pos hi, if_pos (by omega)]
      rw [busMirror, if_neg (by omega)]
      rw [mirrorLoop_lt data rs n _ (Nat.mod_lt _ h0)]
      rw [hi]
    · rw [if_neg hi, ih]
      by_cases h2 : rs ≤ i ∧ i < rs + n
      · rw [if_pos h2, if_pos (by omega)]
      · rw [if_neg h2, if_neg (by omega)]

/-! ### Claim theorems -/

theorem read_eq_classify (c : Cartridge) (pipeline addr : Nat) (size : Width) :
    c.read pipeline addr size =
      (match classify c addr with
        | .sram => (readBuffer c.ram.data (addr &&& c.ram.mask) size, c)
        | .eeprom => (c.eeprom.readBit.1, { c with eeprom := c.eeprom.readBit.2 })
        | .flashrom => (c.flashrom.read addr, c)
        | .rom => (readBuffer c.rom.data (addr &&& 0x01ffffff) size, c)
        | .openBus => (pipeline, c)) := by
  unfold Cartridge.read classify
  split_ifs <;> rfl

theorem write_eq_classify (c : Cartridge) (addr : Nat) (size : Width)
    (word : Nat) :
    c.write addr size word =
      (match classify c addr with
        | .sram => { c with ram := { c.ram with
            data := writeBuffer c.ram.data (addr &&& c.ram.mask) size word } }
        | .eeprom => { c with eeprom := c.eeprom.writeBit (word &&& 1) }
        | .flashrom => { c with flashrom := c.flashrom.write addr word }
        | .rom => c
        | .openBus => c) := by
  unfold Cartridge.write classify
  split_ifs <;> rfl

/-- C1.  For every bus address, read and write dispatch to exactly one
destination chosen by first match in the fixed priority order battery RAM
(present, `addr & 0x0E000000 == 0x0E000000`, index `addr & ram.mask`),
EEPROM (present, `addr & eeprom.mask == eeprom.test`), FlashROM (present,
`addr & 0x0E000000 == 0x0E000000`), image (`addr < 0x0E000000`, index
`addr & 0x01FFFFFF`), else open-bus: a read returns the last instruction
fetched by the processor pipeline and a write has no effect (the image is
read-only, so a write routed there also leaves the state unchanged). -/
theorem C1_dispatch (c : Cartridge) (pipeline addr : Nat) (size : Width)
    (word : Nat) :
    c.read pipeline addr size =
      (match classify c addr with
        | .sram => (readBuffer c.ram.data (addr &&& c.ram.mask) size, c)
        | .eeprom => (c.eeprom.readBit.1, { c with eeprom := c.eeprom.readBit.2 })
        | .flashrom => (c.flashrom.read addr, c)
        | .rom => (readBuffer c.rom.data (addr &&& 0x01ffffff) size, c)
        | .openBus => (pipeline, c))
    ∧ c.write addr size word =
      (match classify c addr with
        | .sram => { c with ram := { c.ram with
            data := writeBuffer c.ram.data (addr &&& c.ram.mask) size word } }
        | .eeprom => { c with eeprom := c.eeprom.writeBit (word &&& 1) }
        | .flashrom => { c with flashrom := c.flashrom.write addr word }
        | .rom => c
        | .openBus => c) :=
  ⟨read_eq_classify c pipeline addr size, write_eq_classify c addr size word⟩

theorem writeBuffer_apply_word (data : Nat → Nat) (addr word i : Nat) :
    writeBuffer data addr Width.Word word i =
      if i = alignAddr Width.Word addr + 3 then (word >>> 24) % 256
      else if i = alignAddr Width.Word addr + 2 then (word >>> 16) % 256
      else if i = alignAddr Width.Word addr + 1 then (word >>> 8) % 256
      else if i = alignAddr Width.Word addr + 0 then (word >>> 0) % 256
      else data i := rfl

theorem writeBuffer_apply_half (data : Nat → Nat) (addr word i : Nat) :
    writeBuffer data addr Width.Half word i =
      if i = alignAddr Width.Half addr + 1 then (word >>> 8) % 256
      else if i = alignAddr Width.Half addr + 0 then (word >>> 0) % 256
      else data i := rfl

theorem writeBuffer_apply_byte (data : Nat → Nat) (addr word i : Nat) :
    writeBuffer data addr Width.Byte word i =
      if i = addr + 0 then (word >>> 0) % 256 else data i := rfl

/-- C2.  Buffer-level Word and Half accesses are little-endian: a Word
read returns the byte at the lowest accessed offset in bits 0-7 and the
following bytes in bits 8-15, 16-23 and 24-31; a Half read composes two
bytes the same way; a Word write stores bits 0-7 of the value at the
lowest offset up to bits 24-31 at the highest; a Half write stores bits
0-7 then bits 8-15; a Byte access transfers exactly one byte (the read
returns that byte and the write changes no other index).  The buffer
holds byte values (each below 256). -/
theorem C2_little_endian (data : Nat → Nat) (hb : ∀ i, data i < 256)
    (addr word : Nat) :
    (readBuffer data addr Width.Word % 256 = data (alignAddr Width.Word addr)
      ∧ (readBuffer data addr Width.Word >>> 8) % 256
          = data (alignAddr Width.Word addr + 1)
      ∧ (readBuffer data addr Width.Word >>> 16) % 256
          = data (alignAddr Width.Word addr + 2)
      ∧ (readBuffer data addr Width.Word >>> 24) % 256
          = data (alignAddr Width.Word addr + 3))
    ∧ (readBuffer data addr Width.Half % 256 = data (alignAddr Width.Half addr)
      ∧ (readBuffer data addr Width.Half >>> 8) % 256
          = data (alignAddr Width.Half addr + 1))
    ∧ readBuffer data addr Width.Byte = data addr
    ∧ (writeBuffer data addr Width.Word word (alignAddr Width.Word addr)
          = word % 256
      ∧ writeBuffer data addr Width.Word word (alignAddr Width.Word addr + 1)
          = (word >>> 8) % 256
      ∧ writeBuffer data addr Width.Word word (alignAddr Width.Word addr + 2)
          = (word >>> 16) % 256
      ∧ writeBuffer data addr Width.Word word (alignAddr Width.Word addr + 3)
          = (word >>> 24) % 256)
    ∧ (writeBuffer data addr Width.Half word (alignAddr Width.Half addr)
          = word % 256
      ∧ writeBuffer data addr Width.Half word (alignAddr Width.Half addr + 1)
          = (word >>> 8) % 256)
    ∧ (writeBuffer data addr Width.Byte word addr = word % 256
      ∧ ∀ i, i ≠ addr → writeBuffer data addr Width.Byte word i = data i) := by
  have hw := readBuffer_word data addr
  rw [lor4_eq _ _ _ _ (hb _) (hb _) (hb _)] at hw
  simp only [Nat.add_zero] at hw
  have hh := readBuffer_half data addr
  rw [lor2_eq _ _ (hb _)] at hh
  simp only [Nat.add_zero] at hh
  have b0 := hb (alignAddr Width.Word addr)
  have b1 := hb (alignAddr Width.Word addr + 1)
  have b2 := hb (alignAddr Width.Word addr + 2)
  have b3 := hb (alignAddr Width.Word addr + 3)
  have c0 := hb (alignAddr Width.Half addr)
  have c1 := hb (alignAddr Width.Half addr + 1)
  refine ⟨⟨?_, ?_, ?_, ?_⟩, ⟨?_, ?_⟩, rfl, ⟨?_, ?_, ?_, ?_⟩, ⟨?_, ?_⟩, ?_, ?_⟩
  · rw [hw]; omega
  · rw [hw, Nat.shiftRight_eq_div_pow]; omega
  · rw [hw, Nat.shiftRight_eq_div_pow]; omega
  · rw [hw, Nat.shiftRight_eq_div_pow]; omega
  · rw [hh]; omega
  · rw [hh, Nat.shiftRight_eq_div_pow]; omega
  · rw [writeBuffer_apply_word]; split_ifs <;> first | simp | omega
  · rw [writeBuffer_apply_word]; split_ifs <;> first | rfl | omega
  · rw [writeBuffer_apply_word]; split_ifs <;> first | rfl | omega
  · rw [writeBuffer_apply_word]; split_ifs <;> first | rfl | omega
  · rw [writeBuffer_apply_half]; split_ifs <;> first | simp | omega
  · rw [writeBuffer_apply_half]; split_ifs <;> first | rfl | omega
  · rw [writeBuffer_apply_byte]; split_ifs <;> first | simp | omega
  · intro i hi
    rw [writeBuffer_apply_byte]
    split_ifs with h
    · omega
    · rfl

/-- Counterexample to C3 as stated.  On the FlashROM route the raw,
unaligned address is handed to the chip (`flashrom.read(addr)` before any
realignment), so a Word read at the unaligned address 0x0E000001 returns
the chip byte at offset 1 (0xFF) while the same read at the realigned
address returns the byte at offset 0 (0x12, programmed by `cFlashProg`):
the effect of an unaligned access does not equal the effect of the
realigned access on every route. -/
theorem C3_counterexample :
    classify cFlashProg 0x0e000001 = Dest.flashrom
    ∧ (cFlashProg.read 0 0x0e000001 Width.Word).1
        ≠ (cFlashProg.read 0 (alignAddr Width.Word 0x0e000001) Width.Word).1 := by
  constructor
  · decide
  · decide

/-- C3 (amended).  A Half access clears bit 0 and a Word access clears
bits 0-1 of the address inside the buffer-level helpers, after dispatch
rather than before it; classification is insensitive to the cleared bits
(given that the EEPROM recognition mask keeps only bits 2..31, as both
load-time values 0x0F000000 and 0x0FFFFF00 do), and on the battery-RAM,
EEPROM, image and open-bus routes the effect of a read or write at an
unaligned address equals the effect at the realigned address; the
FlashROM route is the exception: it receives the raw address.  No
unaligned access is reported as an error (reads and writes are total). -/
theorem C3_alignment (c : Cartridge) (pipeline addr word : Nat) (size : Width)
    (haddr : addr < 2 ^ 32)
    (hmask : c.eeprom.mask &&& 0xfffffffc = c.eeprom.mask)
    (hroute : classify c addr ≠ Dest.flashrom) :
    classify c (alignAddr size addr) = classify c addr
    ∧ c.read pipeline (alignAddr size addr) size = c.read pipeline addr size
    ∧ c.write (alignAddr size addr) size word = c.write addr size word := by
  have hc := classify_align c size haddr hmask
  refine ⟨hc, ?_, ?_⟩
  · cases hd : classify c addr
    case flashrom => exact absurd hd hroute
    all_goals simp only [read_eq_classify, hc, hd]
    case sram =>
      rw [readBuffer_congr c.ram.data (alignAddr_and size addr c.ram.mask)]
    case rom =>
      rw [readBuffer_congr c.rom.data (alignAddr_and size addr 0x01ffffff)]
  · cases hd : classify c addr
    case flashrom => exact absurd hd hroute
    all_goals simp only [write_eq_classify, hc, hd]
    case sram =>
      rw [writeBuffer_congr c.ram.data word (alignAddr_and size addr c.ram.mask)]

/-- Witness for C3 (amended) on the loaded battery-RAM cartridge at the
unaligned address 0x0E000001. -/
theorem C3_alignment_witness :
    classify cSram (alignAddr Width.Word 0x0e000001) = classify cSram 0x0e000001
    ∧ cSram.read 7 (alignAddr Width.Word 0x0e000001) Width.Word
        = cSram.read 7 0x0e000001 Width.Word
    ∧ cSram.write (alignAddr Width.Word 0x0e000001) Width.Word 5
        = cSram.write 0x0e000001 Width.Word 5 :=
  C3_alignment cSram 7 0x0e000001 5 Width.Word (by decide) (by decide)
    (by decide)

/-- C6.  With an 8 MiB image and 32 KiB battery RAM configured, after
`write(0x0E001000, Byte, 0x42)` a `read(0x0E001000, Byte)` returns 0x42,
and `read(0x08000000 + 8 MiB, Byte)` returns the mirrored byte at offset
0 of the image — for every initial allocation state `u`, every image
content `rc` and every pipeline value. -/
theorem C6_scenario (u : Cartridge) (rc : Nat → Nat) (pipeline : Nat) :
    ((c6cart u rc).read pipeline 0x0e001000 Width.Byte).1 = 0x42
    ∧ ((c6cart u rc).read pipeline (0x08000000 + 8 * 1024 * 1024)
        Width.Byte).1 = rc 0 := by
  have ha1 : (234885120 &&& 234881024 : Nat) = 234881024 := rfl
  have ha2 : (142606336 &&& 234881024 : Nat) = 134217728 := rfl
  have ha4 : (234885120 &&& 32767 : Nat) = 4096 := rfl
  have hL := load_sram_fields (Cartridge.init u) (some (rc, 8 * 1024 * 1024))
    (32 * 1024)
  set L := (Cartridge.init u).load (some (rc, 8 * 1024 * 1024))
    (StorageKind.sram (32 * 1024)) with hLdef
  have hcl : classify L 0x0e001000 = Dest.sram := by
    simp [classify, hL.1, ha1]
  have hc6 : c6cart u rc = { L with ram := { L.ram with
      data := writeBuffer L.ram.data (0x0e001000 &&& L.ram.mask)
        Width.Byte 0x42 } } := by
    rw [c6cart, ← hLdef, write_eq_classify, hcl]
  have hmaskL : L.ram.mask = 32767 := by rw [hL.2.2.2.2.2.1]
  constructor
  · rw [read_eq_classify]
    have hcl6 : classify (c6cart u rc) 0x0e001000 = Dest.sram := by
      simp [classify, hc6, hL.1, ha1]
    rw [hcl6]
    simp only [hc6]
    show readBuffer
      (writeBuffer L.ram.data (0x0e001000 &&& L.ram.mask) Width.Byte 0x42)
      (0x0e001000 &&& L.ram.mask) Width.Byte = 0x42
    rw [hmaskL, ha4]
    show writeBuffer L.ram.data 4096 Width.Byte 0x42 (4096 + 0) = 0x42
    rw [writeBuffer_apply_byte]
    simp [Nat.shiftRight_zero]
  · rw [read_eq_classify]
    have hcl6 : classify (c6cart u rc) (0x08000000 + 8 * 1024 * 1024)
        = Dest.rom := by
      simp [classify, hc6, hL.1, hL.2.1, hL.2.2.1, ha2]
    rw [hcl6]
    simp only [hc6]
    show readBuffer L.rom.data ((0x08000000 + 8 * 1024 * 1024) &&& 0x01ffffff)
      Width.Byte = rc 0
    have hrom : L.rom.data =
        mirrorLoop
          (fun i => if i < 8 * 1024 * 1024 then rc i
            else (Cartridge.init u).rom.data i)
          (8 * 1024 * 1024) ((Cartridge.init u).rom.size - 8 * 1024 * 1024) := by
      rw [hLdef]
      exact load_rom_data _ _ _ _
    have hsize : (Cartridge.init u).rom.size = 33554432 := rfl
    have hcount : (Cartridge.init u).rom.size - 8 * 1024 * 1024 = 25165824 := by
      rw [hsize]
    rw [hcount] at hrom
    show L.rom.data (8388608 + 0) = rc 0
    rw [hrom, mirrorLoop_eq _ _ _ _ (by norm_num)]
    norm_num

/-- Witness for C2 at a concrete byte-valued buffer, address and value. -/
theorem C2_little_endian_witness :
    (readBuffer (fun i => i % 256) 0x1002 Width.Word >>> 8) % 256
      = (fun i => (i : Nat) % 256) (alignAddr Width.Word 0x1002 + 1)
    ∧ writeBuffer (fun i => i % 256) 0x1002 Width.Half 0xabcd
        (alignAddr Width.Half 0x1002 + 1) = (0xabcd >>> 8) % 256 :=
  ⟨(C2_little_endian (fun i => i % 256)
      (fun i => Nat.mod_lt i (by decide)) 0x1002 0xabcd).1.2.1,
   (C2_little_endian (fun i => i % 256)
      (fun i => Nat.mod_lt i (by decide)) 0x1002 0xabcd).2.2.2.2.1.2⟩

/-- C4.  Loading an EEPROM configuration: a non-zero size of at most 512
bytes sets `addressBits` to 6, a larger size sets 14, and size 0 resolves
to the 8192-byte auto-detect default with `addressBits` 0; the recognition
mask/pattern pair is 0x0FFFFF00/0x0DFFFF00 exactly when the image exceeds
16 MiB and 0x0F000000/0x0D000000 otherwise. -/
theorem C4_eeprom_config (c : Cartridge) (romContent : Nat → Nat)
    (romSize size : Nat) :
    let c' := c.load (some (romContent, romSize)) (StorageKind.eeprom size)
    (c'.eeprom.bits = if size = 0 then 0 else if size ≤ 512 then 6 else 14)
    ∧ (c'.eeprom.size = if size = 0 then 8192 else size)
    ∧ ((c'.eeprom.mask = 0x0fffff00 ∧ c'.eeprom.test = 0x0dffff00)
        ↔ 16 * 1024 * 1024 < romSize)
    ∧ ((c'.eeprom.mask = 0x0f000000 ∧ c'.eeprom.test = 0x0d000000)
        ↔ romSize ≤ 16 * 1024 * 1024) := by
  simp only [Cartridge.load]
  refine ⟨trivial, trivial, ?_, ?_⟩
  · split_ifs with h <;> simp <;> omega
  · split_ifs with h <;> simp <;> omega

/-- Counterexample to C5 as stated.  On the loaded 32 KiB battery-RAM
cartridge, `mask = size - 1 = 32767`, and a Byte read at bus address
0x0E007FFF returns the byte the code indexes at `addr & mask = 32767`
(the value 1 written there), which is not the byte at
`addr mod mask = 7168` (still the erased 0xFF): the index is not the bus
address taken modulo `mask`. -/
theorem C5_counterexample :
    cSramTop.ram.mask = cSramTop.ram.size - 1
    ∧ (cSramTop.read 0 0x0e007fff Width.Byte).1
        ≠ cSramTop.ram.data (0x0e007fff % cSramTop.ram.mask) := by
  refine ⟨by decide, by decide⟩

/-- C5 (amended).  For every bus access routed to battery RAM, the index
into the RAM buffer equals the bus address bitwise-ANDed with `mask` —
equivalently, since `mask = size - 1` and `size` is a power of two, the
bus address taken modulo `size`. -/
theorem C5_sram_index (c : Cartridge) (pipeline addr word k : Nat)
    (size : Width)
    (hs : c.has_sram = true)
    (hroute : addr &&& 0x0e000000 = 0x0e000000)
    (hpow : c.ram.size = 2 ^ k)
    (hmask : c.ram.mask = c.ram.size - 1) :
    c.read pipeline addr size
      = (readBuffer c.ram.data (addr % c.ram.size) size, c)
    ∧ c.write addr size word = { c with ram := { c.ram with
        data := writeBuffer c.ram.data (addr % c.ram.size) size word } } := by
  have hidx : addr &&& c.ram.mask = addr % c.ram.size := by
    rw [hmask, hpow]
    exact Nat.and_pow_two_sub_one_eq_mod addr k
  have hcl : classify c addr = Dest.sram := by
    simp [classify, hs, hroute]
  constructor
  · rw [read_eq_classify, hcl, hidx]
  · rw [write_eq_classify, hcl, hidx]

/-- Witness for C5 (amended) on the loaded 32 KiB battery-RAM cartridge. -/
theorem C5_sram_index_witness :
    cSram.read 9 0x0e001234 Width.Byte
      = (readBuffer cSram.ram.data (0x0e001234 % cSram.ram.size) Width.Byte,
         cSram)
    ∧ cSram.write 0x0e001234 Width.Byte 0x7 = { cSram with
        ram := { cSram.ram with
          data := writeBuffer cSram.ram.data (0x0e001234 % cSram.ram.size)
            Width.Byte 0x7 } } :=
  C5_sram_index cSram 9 0x0e001234 0x7 15 Width.Byte (by decide) (by decide)
    (by decide) (by decide)

/-- C7.  `ram_data()`/`ram_size()` expose exactly one active storage
buffer in the fixed priority battery RAM, EEPROM, FlashROM; with no
storage chip configured they return the null pointer (modelled as `none`)
and 0. -/
theorem C7_storage_exposure (c : Cartridge) :
    (c.has_sram = true →
      c.ram_data = some c.ram.data ∧ c.ram_size = c.ram.size)
    ∧ (c.has_sram = false → c.has_eeprom = true →
      c.ram_data = some c.eeprom.data ∧ c.ram_size = c.eeprom.size)
    ∧ (c.has_sram = false → c.has_eeprom = false → c.has_flashrom = true →
      c.ram_data = some c.flashrom.data ∧ c.ram_size = c.flashrom.size)
    ∧ (c.has_sram = false → c.has_eeprom = false → c.has_flashrom = false →
      c.ram_data = Option.none ∧ c.ram_size = 0) := by
  refine ⟨fun h1 => ?_, fun h1 h2 => ?_, fun h1 h2 h3 => ?_,
    fun h1 h2 h3 => ?_⟩
  · simp [Cartridge.ram_data, Cartridge.ram_size, h1]
  · simp [Cartridge.ram_data, Cartridge.ram_size, h1, h2]
  · simp [Cartridge.ram_data, Cartridge.ram_size, h1, h2, h3]
  · simp [Cartridge.ram_data, Cartridge.ram_size, h1, h2, h3]

/-- Witness for C7 on the four concrete configurations. -/
theorem C7_storage_exposure_witness :
    (cSram.ram_data = some cSram.ram.data ∧ cSram.ram_size = cSram.ram.size)
    ∧ (cEep.ram_data = some cEep.eeprom.data
        ∧ cEep.ram_size = cEep.eeprom.size)
    ∧ (cFlash.ram_data = some cFlash.flashrom.data
        ∧ cFlash.ram_size = cFlash.flashrom.size)
    ∧ (zeroCart.ram_data = Option.none ∧ zeroCart.ram_size = 0) :=
  ⟨(C7_storage_exposure cSram).1 (by decide),
   (C7_storage_exposure cEep).2.1 (by decide) (by decide),
   (C7_storage_exposure cFlash).2.2.1 (by decide) (by decide) (by decide),
   (C7_storage_exposure zeroCart).2.2.2 rfl rfl rfl⟩

/-- Counterexample to C8 as stated.  After `unload()` on a loaded
cartridge with battery RAM holding 0x42 at index 0, the chip-presence
flag is still set and the RAM byte still holds 0x42: `unload()` does not
clear the owned buffers or the chip-presence configuration (it only
clears `loaded` and the registered memory-stream list). -/
theorem C8_counterexample :
    cSramW.loaded = true
    ∧ cSramW.unload.loaded = false
    ∧ cSramW.unload.has_sram = true
    ∧ cSramW.unload.ram.data 0 = 0x42 := by
  refine ⟨by decide, by decide, by decide, by decide⟩

/-- C8 (amended).  `unload()` on a loaded cartridge clears the loaded
flag and resets the registered memory-stream list, leaving every buffer
and the chip-presence configuration untouched; when already unloaded it
changes no state, and it is idempotent. -/
theorem C8_unload (c : Cartridge) :
    (c.loaded = true → c.unload = { c with loaded := false, memory := [] })
    ∧ (c.loaded = false → c.unload = c)
    ∧ c.unload.unload = c.unload
    ∧ c.unload.has_sram = c.has_sram
    ∧ c.unload.has_eeprom = c.has_eeprom
    ∧ c.unload.has_flashrom = c.has_flashrom
    ∧ c.unload.rom = c.rom
    ∧ c.unload.ram = c.ram
    ∧ c.unload.eeprom = c.eeprom
    ∧ c.unload.flashrom = c.flashrom := by
  unfold Cartridge.unload
  by_cases h : c.loaded = false
  · simp [h]
  · simp [h]

/-- Witness for C8 (amended): the loaded, written cartridge and the
never-loaded cartridge. -/
theorem C8_unload_witness :
    cSramW.unload = { cSramW with loaded := false, memory := [] }
    ∧ zeroCart.unload = zeroCart :=
  ⟨(C8_unload cSramW).1 (by decide), (C8_unload zeroCart).2.1 rfl⟩

/-- Counterexample to C9 as stated.  The constructor allocates with
`new uint8[...]`, which does not initialize the bytes; for the concrete
allocation pre-state in which the heap bytes are 0, the freshly
constructed cartridge has 0, not 0xFF, in its RAM and image buffers. -/
theorem C9_counterexample :
    (Cartridge.init zeroCart).ram.data 0 = 0
    ∧ (Cartridge.init zeroCart).rom.data 0 = 0
    ∧ (0 : Nat) ≠ 0xff := by
  refine ⟨rfl, rfl, by decide⟩

/-- C9 (amended).  The constructor leaves all four buffers exactly as
allocated (uninitialized); the erased-state 0xFF fill happens in
`load()`, which fills the first `size` bytes of exactly the configured
storage chip's buffer (battery RAM, EEPROM with its resolved size, or
FlashROM) before use; the image buffer is never 0xFF-filled. -/
theorem C9_erased_fill (u : Cartridge) (rl : Option ((Nat → Nat) × Nat))
    (i : Nat) :
    ((Cartridge.init u).rom.data = u.rom.data
      ∧ (Cartridge.init u).ram.data = u.ram.data
      ∧ (Cartridge.init u).eeprom.data = u.eeprom.data
      ∧ (Cartridge.init u).flashrom.data = u.flashrom.data)
    ∧ (∀ size, i < size →
        (u.load rl (StorageKind.sram size)).ram.data i = 0xff)
    ∧ (∀ size, i < (if size = 0 then 8192 else size) →
        (u.load rl (StorageKind.eeprom size)).eeprom.data i = 0xff)
    ∧ (∀ chipId size, i < size →
        (u.load rl (StorageKind.flashrom chipId size)).flashrom.data i
          = 0xff) := by
  refine ⟨⟨rfl, rfl, rfl, rfl⟩, ?_, ?_, ?_⟩
  · intro size hi
    rw [(load_sram_fields u rl size).2.2.2.1]
    simp [fillErased, hi]
  · intro size hi
    have hdata : (u.load rl (StorageKind.eeprom size)).eeprom.data
        = fillErased u.eeprom.data (if size = 0 then 8192 else size) := by
      cases rl <;> simp [Cartridge.load]
    rw [hdata]
    simp [fillErased, hi]
  · intro chipId size hi
    have hdata : (u.load rl (StorageKind.flashrom chipId size)).flashrom.data
        = fillErased u.flashrom.data size := by
      cases rl <;> simp [Cartridge.load]
    rw [hdata]
    simp [fillErased, hi]

/-- Witness for C9 (amended) at the zero pre-state and index 5. -/
theorem C9_erased_fill_witness :
    (Cartridge.init zeroCart).ram.data = zeroCart.ram.data
    ∧ (zeroCart.load Option.none (StorageKind.sram 32768)).ram.data 5 = 0xff
    ∧ (zeroCart.load Option.none (StorageKind.eeprom 0)).eeprom.data 5 = 0xff
    ∧ (zeroCart.load Option.none
        (StorageKind.flashrom 1 65536)).flashrom.data 5 = 0xff :=
  ⟨(C9_erased_fill zeroCart Option.none 5).1.2.1,
   (C9_erased_fill zeroCart Option.none 5).2.1 32768 (by decide),
   (C9_erased_fill zeroCart Option.none 5).2.2.1 0 (by decide),
   (C9_erased_fill zeroCart Option.none 5).2.2.2 1 65536 (by decide)⟩

/-- C10.  For every bus access routed to battery RAM or to the image,
after masking (with `ram.mask`, respectively 0x01FFFFFF) and width
alignment, the highest byte index touched (`index + width - 1`) is
strictly below the buffer bound (`ram.size` bytes for battery RAM,
32 MiB for the image), provided the configured battery-RAM size is a
power of two of at least 4 bytes and `mask = size - 1`. -/
theorem C10_bounds (c : Cartridge) (addr k : Nat) (size : Width)
    (hpow : c.ram.size = 2 ^ k)
    (hge : 4 ≤ c.ram.size)
    (hmask : c.ram.mask = c.ram.size - 1) :
    alignAddr size (addr &&& c.ram.mask) + (widthBytes size - 1) < c.ram.size
    ∧ alignAddr size (addr &&& 0x01ffffff) + (widthBytes size - 1)
        < 32 * 1024 * 1024 := by
  have hk2 : 2 ≤ k := by
    rcases k with _ | _ | k
    · rw [hpow] at hge; norm_num at hge
    · rw [hpow] at hge; norm_num at hge
    · omega
  have hdvd : 2 ^ k % 4 = 0 := by
    have h4 : (2 : Nat) ^ k = 2 ^ 2 * 2 ^ (k - 2) := by
      rw [← Nat.pow_add]
      congr 1
      omega
    omega
  have hxlt : addr &&& c.ram.mask < 2 ^ k := by
    rw [hmask, hpow, Nat.and_pow_two_sub_one_eq_mod]
    exact Nat.mod_lt _ (Nat.two_pow_pos k)
  have hrle : addr &&& 0x01ffffff ≤ 0x01ffffff := Nat.and_le_right
  rw [hpow]
  cases size
  case Byte =>
    refine ⟨?_, ?_⟩
    · simpa [alignAddr, widthBytes] using hxlt
    · simp only [alignAddr, widthBytes]
      omega
  case Half =>
    have m1 : (alignAddr Width.Half (addr &&& c.ram.mask)) % 2 = 0 := by
      have h3 : (addr &&& c.ram.mask &&& 0xfffffffe) &&& 1 = 0 := by
        rw [Nat.and_assoc]
        have hc : (0xfffffffe &&& 1 : Nat) = 0 := rfl
        rw [hc, Nat.and_zero]
      rw [Nat.and_one_is_mod] at h3
      simpa [alignAddr] using h3
    have m2 : (alignAddr Width.Half (addr &&& 0x01ffffff)) % 2 = 0 := by
      have h3 : (addr &&& 0x01ffffff &&& 0xfffffffe) &&& 1 = 0 := by
        rw [Nat.and_assoc]
        have hc : (0xfffffffe &&& 1 : Nat) = 0 := rfl
        rw [hc, Nat.and_zero]
      rw [Nat.and_one_is_mod] at h3
      simpa [alignAddr] using h3
    have le1 : alignAddr Width.Half (addr &&& c.ram.mask)
        ≤ addr &&& c.ram.mask := Nat.and_le_left
    have le2 : alignAddr Width.Half (addr &&& 0x01ffffff)
        ≤ addr &&& 0x01ffffff := Nat.and_le_left
    simp only [alignAddr, widthBytes] at m1 m2 le1 le2 ⊢
    omega
  case Word =>
    have m1 : (alignAddr Width.Word (addr &&& c.ram.mask)) % 4 = 0 := by
      have h3 : (addr &&& c.ram.mask &&& 0xfffffffc) &&& 3 = 0 := by
        rw [Nat.and_assoc]
        have hc : (0xfffffffc &&& 3 : Nat) = 0 := rfl
        rw [hc, Nat.and_zero]
      have h5 := Nat.and_pow_two_sub_one_eq_mod
        (addr &&& c.ram.mask &&& 0xfffffffc) 2
      norm_num at h5
      simp only [alignAddr]
      omega
    have m2 : (alignAddr Width.Word (addr &&& 0x01ffffff)) % 4 = 0 := by
      have h3 : (addr &&& 0x01ffffff &&& 0xfffffffc) &&& 3 = 0 := by
        rw [Nat.and_assoc]
        have hc : (0xfffffffc &&& 3 : Nat) = 0 := rfl
        rw [hc, Nat.and_zero]
      have h5 := Nat.and_pow_two_sub_one_eq_mod
        (addr &&& 0x01ffffff &&& 0xfffffffc) 2
      norm_num at h5
      simp only [alignAddr]
      omega
    have le1 : alignAddr Width.Word (addr &&& c.ram.mask)
        ≤ addr &&& c.ram.mask := Nat.and_le_left
    have le2 : alignAddr Width.Word (addr &&& 0x01ffffff)
        ≤ addr &&& 0x01ffffff := Nat.and_le_left
    simp only [alignAddr, widthBytes] at m1 m2 le1 le2 ⊢
    omega

/-- Witness for C10 on the loaded 32 KiB battery-RAM cartridge at an
unaligned top-of-chip address with Word width. -/
theorem C10_bounds_witness :
    alignAddr Width.Word (0x0e007fff &&& cSram.ram.mask)
        + (widthBytes Width.Word - 1) < cSram.ram.size
    ∧ alignAddr Width.Word (0x0e007fff &&& 0x01ffffff)
        + (widthBytes Width.Word - 1) < 32 * 1024 * 1024 :=
  C10_bounds cSram 0x0e007fff 15 Width.Word (by decide) (by decide)
    (by decide)

end GameBoyAdvance
